import Mathlib

/-!
Verification of the EdgeSummon conversation store and orchestration core.

The development shallowly embeds the TypeScript sources:
  - `chatRoomDO.ts`   (per-session durable conversation store)
  - `textExtraction.ts` / worker module (message classifier and turn orchestrator)
  - `llmClient.ts`    (context-window builder for follow-up prompts)

Strings are modelled as lists of characters (`Str`).  External collaborators
(HTML text extraction and the language model) are modelled as oracles whose
outcomes are supplied as parameters, so the orchestration logic itself stays
a pure, executable function.  Timestamps are natural numbers handed out by a
deterministic tick counter threaded through each turn.
-/

namespace EdgeSummon

/-- Character-list model of JavaScript strings. -/
abbrev Str := List Char

/-- The apostrophe character, used in several user-facing message literals. -/
def apos : Char := Char.ofNat 39

/-- Newline character used by the prompt builder. -/
def nlChar : Char := Char.ofNat 10

/-- Whitespace characters removed by JavaScript `String.prototype.trim`
(ASCII whitespace, NBSP, line/paragraph separators, ZWNBSP). -/
def jsWhitespace (c : Char) : Bool :=
  c == ' ' || c == Char.ofNat 9 || c == Char.ofNat 10 || c == Char.ofNat 11 ||
  c == Char.ofNat 12 || c == Char.ofNat 13 || c == Char.ofNat 160 ||
  c == Char.ofNat 0x2028 || c == Char.ofNat 0x2029 || c == Char.ofNat 0xFEFF

/-- Model of JavaScript `text.trim()`: drop whitespace from both ends. -/
def jsTrim (l : Str) : Str :=
  ((l.dropWhile jsWhitespace).reverse.dropWhile jsWhitespace).reverse

/-- Model of ECMAScript `Array.prototype.slice` with a single `start`
argument (the only form the sources use, always as `slice(-limit)`).
A negative start counts from the end, clamped at zero; a non-negative
start drops that many leading elements. -/
def jsSliceFrom {α : Type} (l : List α) (start : Int) : List α :=
  if start < 0 then l.drop (l.length - min l.length (-start).toNat)
  else l.drop (min start.toNat l.length)

/-- The last `n` elements of a list, in original order (spec-side notion of
"the last `limit` entries"). -/
def lastN {α : Type} (n : Nat) (l : List α) : List α :=
  l.drop (l.length - n)

/-! ## Message classifier (`textExtraction.ts`) -/

/-- Characters counted by the `/[.!?]/g` match in
`isLikelyContentToSummarize`. -/
def sentencePunct (c : Char) : Bool :=
  c == '.' || c == '!' || c == '?'

/-- Number of sentence-ending punctuation characters in a string. -/
def countSentenceEndings (l : Str) : Nat :=
  l.countP sentencePunct

/-- Case-insensitive test for a leading `http://` or `https://` scheme,
the effect of the regex `/^https?:\/\//i` on an already-trimmed string. -/
def startsWithHttp (l : Str) : Bool :=
  ("http://".toList).isPrefixOf (l.map Char.toLower) ||
  ("https://".toList).isPrefixOf (l.map Char.toLower)

/-- `isURL` from `textExtraction.ts`: regex test against the trimmed text. -/
def isURL (text : Str) : Bool :=
  startsWithHttp (jsTrim text)

/-- `isLikelyContentToSummarize` from `textExtraction.ts`. -/
def isLikelyContentToSummarize (text : Str) : Bool :=
  let trimmed := jsTrim text
  if trimmed.getLast? = some '?' then false
  else if trimmed.length > 200 then true
  else if countSentenceEndings trimmed ≥ 3 then true
  else false

/-- Result of message classification. -/
inductive MessageType
  | url
  | content
  | followup
deriving DecidableEq, Repr

/-- `determineMessageType` from the worker module. -/
def determineMessageType (message : Str) : MessageType :=
  if isURL message then .url
  else if isLikelyContentToSummarize message then .content
  else .followup

/-- Modelled from the spec wording (section 4.1), for comparison with the
source classifier: rule 1 URL on trimmed scheme match; rule 2 FOLLOWUP on
trailing question mark; rule 3 CONTENT above 200 trimmed characters;
rule 4 CONTENT at three or more sentence-ending marks counted in the text;
rule 5 FOLLOWUP. -/
def specClassify (text : Str) : MessageType :=
  if startsWithHttp (jsTrim text) then .url
  else if (jsTrim text).getLast? = some '?' then .followup
  else if (jsTrim text).length > 200 then .content
  else if countSentenceEndings text ≥ 3 then .content
  else .followup

/-! ## Data model (`chatRoomDO.ts`) -/

/-- Entry roles. -/
inductive Role
  | user
  | assistant
  | system
deriving DecidableEq, Repr

/-- The optional `type` tag on a conversation entry. -/
inductive EntryType
  | urlSummary
  | rawSummary
  | followup
  | question
deriving DecidableEq, Repr

/-- `ConversationEntry` from `chatRoomDO.ts`.  `role` is optional because the
append handler validates its presence on the wire (`!entry.role`); `createdAt`
is optional because the handler assigns it when absent. -/
structure ConversationEntry where
  role : Option Role
  content : Str
  type : Option EntryType
  url : Option Str
  createdAt : Option Nat
deriving DecidableEq, Repr

/-- `StoredState`: the per-session durable record. -/
structure StoredState where
  entries : List ConversationEntry
  createdAt : Nat
  lastAccessedAt : Nat
deriving DecidableEq, Repr

/-- Response of the append handler: HTTP 200 with the committed entry count,
or HTTP 400 when validation fails. -/
inductive AppendResp
  | ok (entryCount : Nat)
  | invalid
deriving DecidableEq, Repr

/-- `handleAppend` from `chatRoomDO.ts`: validate `role`/`content`, assign
`createdAt` when absent, push the entry, update `lastAccessedAt`, persist. -/
def handleAppend (s : StoredState) (entry : ConversationEntry) (now : Nat) :
    AppendResp × StoredState :=
  if entry.role = none ∨ entry.content = [] then (.invalid, s)
  else
    let committed := {entry with createdAt := some (entry.createdAt.getD now)}
    let s1 := {s with entries := s.entries ++ [committed], lastAccessedAt := now}
    (.ok s1.entries.length, s1)

/-- `handleGetRecent` from `chatRoomDO.ts`: update `lastAccessedAt`, then
return `entries.slice(-limit)`. -/
def handleGetRecent (s : StoredState) (limit : Int) (now : Nat) :
    List ConversationEntry × StoredState :=
  (jsSliceFrom s.entries (-limit), {s with lastAccessedAt := now})

/-- `handleClear` from `chatRoomDO.ts`: truncate the log, keep `createdAt`,
update `lastAccessedAt`. -/
def handleClear (s : StoredState) (now : Nat) : StoredState :=
  {s with entries := [], lastAccessedAt := now}

/-- Payload of the stats response. -/
structure StatsResp where
  entryCount : Nat
  createdAt : Nat
  lastAccessedAt : Nat
deriving DecidableEq, Repr

/-- `handleGetStats` from `chatRoomDO.ts`.  The handler only reads the state;
the `now` parameter records the wall-clock instant of the request, which the
source never consults. -/
def handleGetStats (s : StoredState) (now : Nat) : StatsResp × StoredState :=
  (⟨s.entries.length, s.createdAt, s.lastAccessedAt⟩, s)

/-! ## Context-window builder (`llmClient.ts`) -/

/-- Ellipsis marker appended to truncated context lines. -/
def strEllipsis : Str := "...".toList

/-- Role label for rendered user lines. -/
def strUser : Str := "User: ".toList

/-- Role label for rendered assistant lines. -/
def strAssistant : Str := "Assistant: ".toList

/-- Render of a submitted-URL user entry. -/
def strUserSubmittedURL : Str := "User submitted URL: ".toList

/-- One iteration of the context loop in `buildFollowupPrompt`. -/
def renderEntrySrc (e : ConversationEntry) : Str :=
  if e.role = some Role.user then
    if e.type = some EntryType.urlSummary ∧ e.url.getD [] ≠ [] then
      strUserSubmittedURL ++ e.url.getD [] ++ [nlChar]
    else
      strUser ++ e.content.take 200 ++
        (if 200 < e.content.length then strEllipsis else []) ++ [nlChar]
  else if e.role = some Role.assistant then
    strAssistant ++ e.content.take 300 ++
      (if 300 < e.content.length then strEllipsis else []) ++ [nlChar]
  else []

/-- The `contextText` accumulation of `buildFollowupPrompt`: take
`context.slice(-5)` and append one rendered line per entry. -/
def buildContextText (context : List ConversationEntry) : Str :=
  (jsSliceFrom context (-5)).foldl (fun acc e => acc ++ renderEntrySrc e) []

/-- `buildFollowupPrompt` from `llmClient.ts`: fixed preamble, the rendered
context block, and the current question. -/
def buildFollowupPrompt (question : Str) (context : List ConversationEntry) : Str :=
  ("You are EdgeSummon, an AI assistant that helps users understand and discuss content from web pages and documents.\n\nPrevious conversation context:\n".toList) ++
  buildContextText context ++
  ("\n\nCurrent question: ".toList) ++ question ++
  ("\n\nProvide a helpful, accurate answer based on the conversation context. If the question cannot be answered from the context, say so clearly.".toList)

/-- Spec-side truncation: the content cut to `n` characters with an ellipsis
marker exactly when it was truncated. -/
def truncateEllipsis (s : Str) (n : Nat) : Str :=
  if n < s.length then s.take n ++ strEllipsis else s

/-- Modelled from the spec wording (section 4.3), for comparison with the
source renderer: URL-summary user entries with a URL render as the
submitted-URL line, other user entries as role-prefixed content truncated at
200 characters, assistant entries truncated at 300 characters; other roles
contribute nothing. -/
def specRenderEntry (e : ConversationEntry) : Str :=
  match e.role, e.type, e.url with
  | some .user, some .urlSummary, some u =>
      if u = [] then strUser ++ truncateEllipsis e.content 200 ++ [nlChar]
      else strUserSubmittedURL ++ u ++ [nlChar]
  | some .user, _, _ => strUser ++ truncateEllipsis e.content 200 ++ [nlChar]
  | some .assistant, _, _ => strAssistant ++ truncateEllipsis e.content 300 ++ [nlChar]
  | _, _, _ => []

/-- Modelled from the spec wording (section 4.3): the context block is the
concatenation, in original order, of the rendered last five entries. -/
def specContextBlock (entries : List ConversationEntry) : Str :=
  ((lastN 5 entries).map specRenderEntry).flatten

/-! ## Turn orchestrator (`processMessage` in the worker module)

External collaborators are oracles: `extractResult` is the outcome of
`fetchAndExtractText`, `summaryResult` of `generateSummary`, and
`followupResult` of `answerFollowup`.  The turn records which generation
calls it issued so that claims about "generation is (not) invoked" and about
the context handed to generation are statable. -/

/-- Outcome of one external collaborator call: a returned string or a thrown
error message. -/
inductive CollabResult
  | ok (value : Str)
  | err (msg : Str)
deriving DecidableEq, Repr

/-- Per-turn oracle outcomes for the external collaborators. -/
structure Oracles where
  extractResult : CollabResult
  summaryResult : CollabResult
  followupResult : CollabResult
deriving DecidableEq, Repr

/-- A generation call issued during a turn, with the arguments the
orchestrator passed to the collaborator. -/
inductive GenCall
  | summary (text : Str) (url : Option Str)
  | followup (question : Str) (context : List ConversationEntry)
deriving DecidableEq, Repr

/-- Result of a completed turn: the reply string, the state of the session
store after both appends, and the generation calls issued. -/
structure TurnResult where
  reply : Str
  state : StoredState
  genCalls : List GenCall
deriving DecidableEq, Repr

/-- Outcome of `processMessage`: either a completed turn, or the error thrown
by `appendEntry` when the store rejects an append
("Failed to append entry to conversation"). -/
inductive ProcOutcome
  | ok (res : TurnResult)
  | appendFailed
deriving DecidableEq, Repr

/-- User-entry content of the URL branch:
`Submitted URL for summarization: {url}`. -/
def strSubmittedURL : Str := "Submitted URL for summarization: ".toList

/-- Apology of the URL branch catch block. -/
def strSorryUrl : Str :=
  ("Sorry, I couldn".toList) ++ [apos] ++ ("t fetch or summarize that URL. ".toList)

/-- Apology of the content branch catch block. -/
def strSorryGen : Str :=
  ("Sorry, I couldn".toList) ++ [apos] ++ ("t generate a summary. ".toList)

/-- Apology of the follow-up branch catch block. -/
def strSorryFollowup : Str :=
  ("Sorry, I couldn".toList) ++ [apos] ++ ("t answer your question. ".toList)

/-- Fixed reply used when the fetched context is empty. -/
def strNoContext : Str :=
  ("I don".toList) ++ [apos] ++
  ("t have any previous context to answer your question. Please provide a URL or text to summarize first.".toList)

/-- Message of the error thrown when extraction yields no meaningful text. -/
def strNoMeaningful : Str :=
  "Could not extract meaningful content from the URL".toList

/-- User entry of the URL branch. -/
def urlUserEntry (url : Str) (t : Nat) : ConversationEntry :=
  ⟨some .user, strSubmittedURL ++ url, some .urlSummary, some url, some t⟩

/-- User entry of the content branch. -/
def contentUserEntry (message : Str) (t : Nat) : ConversationEntry :=
  ⟨some .user, message, some .rawSummary, none, some t⟩

/-- User entry of the follow-up branch. -/
def followupUserEntry (message : Str) (t : Nat) : ConversationEntry :=
  ⟨some .user, message, some .followup, none, some t⟩

/-- Assistant entry built in the URL branch catch block: apology content,
`type` kept as url-summary, and no `url` field. -/
def urlFailEntry (msg : Str) (t : Nat) : ConversationEntry :=
  ⟨some .assistant, strSorryUrl ++ msg, some .urlSummary, none, some t⟩

/-- The `try` block of the URL branch: extraction, the 50-character floor,
then summarization; each failure is absorbed into the apology reply.
Returns the reply, the assistant entry, and the generation calls issued. -/
def urlTryBlock (url : Str) (o : Oracles) (t : Nat) :
    Str × ConversationEntry × List GenCall :=
  match o.extractResult with
  | .err e => (strSorryUrl ++ e, urlFailEntry e t, [])
  | .ok extractedText =>
    if extractedText = [] ∨ (jsTrim extractedText).length < 50 then
      (strSorryUrl ++ strNoMeaningful, urlFailEntry strNoMeaningful t, [])
    else
      match o.summaryResult with
      | .err e =>
          (strSorryUrl ++ e, urlFailEntry e t,
           [GenCall.summary extractedText (some url)])
      | .ok summary =>
          (summary, ⟨some .assistant, summary, some .urlSummary, some url, some t⟩,
           [GenCall.summary extractedText (some url)])

/-- The `try` block of the content branch.  Its catch-block assistant entry
carries no `type` field. -/
def contentTryBlock (message : Str) (o : Oracles) (t : Nat) :
    Str × ConversationEntry × List GenCall :=
  match o.summaryResult with
  | .ok r =>
      (r, ⟨some .assistant, r, some .rawSummary, none, some t⟩,
       [GenCall.summary message none])
  | .err e =>
      (strSorryGen ++ e, ⟨some .assistant, strSorryGen ++ e, none, none, some t⟩,
       [GenCall.summary message none])

/-- The `try` block of the follow-up branch, given the context fetched from
the store: skip generation on an empty context, otherwise call generation;
its catch-block assistant entry carries no `type` field. -/
def followupTryBlock (message : Str) (context : List ConversationEntry)
    (o : Oracles) (t : Nat) : Str × ConversationEntry × List GenCall :=
  if context.length = 0 then
    (strNoContext, ⟨some .assistant, strNoContext, some .followup, none, some t⟩, [])
  else
    match o.followupResult with
    | .ok r =>
        (r, ⟨some .assistant, r, some .followup, none, some t⟩,
         [GenCall.followup message context])
    | .err e =>
        (strSorryFollowup ++ e,
         ⟨some .assistant, strSorryFollowup ++ e, none, none, some t⟩,
         [GenCall.followup message context])

/-- Final shared step of every branch: append the assistant entry and return
the reply; a store rejection surfaces as the append error. -/
def finishTurn (s1 : StoredState) (reply : Str) (a : ConversationEntry)
    (calls : List GenCall) (t : Nat) : ProcOutcome :=
  match handleAppend s1 a t with
  | (.invalid, _) => .appendFailed
  | (.ok _, s2) => .ok ⟨reply, s2, calls⟩

/-- `processMessage` from the worker module: classify, append the user entry,
run the branch body with failures absorbed, append the assistant entry,
return the reply.  `t` is the tick counter from which the successive
`new Date()` readings of the turn are drawn. -/
def processMessage (message : Str) (s : StoredState) (o : Oracles) (t : Nat) :
    ProcOutcome :=
  match determineMessageType message with
  | .url =>
    match handleAppend s (urlUserEntry (jsTrim message) t) (t + 1) with
    | (.invalid, _) => .appendFailed
    | (.ok _, s1) =>
      let tr := urlTryBlock (jsTrim message) o (t + 2)
      finishTurn s1 tr.1 tr.2.1 tr.2.2 (t + 3)
  | .content =>
    match handleAppend s (contentUserEntry message t) (t + 1) with
    | (.invalid, _) => .appendFailed
    | (.ok _, s1) =>
      let tr := contentTryBlock message o (t + 2)
      finishTurn s1 tr.1 tr.2.1 tr.2.2 (t + 3)
  | .followup =>
    match handleAppend s (followupUserEntry message t) (t + 1) with
    | (.invalid, _) => .appendFailed
    | (.ok _, s1) =>
      let rec0 := handleGetRecent s1 10 (t + 2)
      let tr := followupTryBlock message rec0.1 o (t + 3)
      finishTurn rec0.2 tr.1 tr.2.1 tr.2.2 (t + 4)

/-- Sequential processing of a batch of inbound messages against one
session, stopping at the first append failure. -/
def runMessages : List (Str × Oracles) → StoredState → Nat → Option StoredState
  | [], s, _ => some s
  | (m, o) :: rest, s, t =>
    match processMessage m s o t with
    | .ok res => runMessages rest res.state (t + 5)
    | .appendFailed => none

/-! ## Concrete scenario inputs used by the claim theorems and witnesses -/

/-- A prior assistant entry already in the log. -/
def c1prior : ConversationEntry :=
  ⟨some .assistant, "Old.".toList, some .rawSummary, none, some 0⟩

/-- A session log holding one prior entry. -/
def c1state : StoredState := ⟨[c1prior], 0, 0⟩

/-- A follow-up question. -/
def c1msg : Str := "And this?".toList

/-- Oracles whose follow-up generation succeeds. -/
def c1oracles : Oracles :=
  ⟨.ok ("x".toList), .ok ("x".toList), .ok ("Ans.".toList)⟩

/-- The completed turn of the scenario above. -/
def c1res : TurnResult :=
  match processMessage c1msg c1state c1oracles 10 with
  | .ok r => r
  | .appendFailed => ⟨[], c1state, []⟩

/-- An empty session log. -/
def c2state : StoredState := ⟨[], 0, 0⟩

/-- A follow-up question asked against the empty log. -/
def c2msg : Str := "What is this?".toList

/-- Oracles whose follow-up generation succeeds. -/
def c2oracles : Oracles :=
  ⟨.ok ("x".toList), .ok ("x".toList), .ok ("Yes.".toList)⟩

/-- The completed empty-log follow-up turn. -/
def c2res : TurnResult :=
  match processMessage c2msg c2state c2oracles 0 with
  | .ok r => r
  | .appendFailed => ⟨[], c2state, []⟩

/-- Oracles for the batch run: all collaborators succeed. -/
def c3oracles : Oracles :=
  ⟨.ok ("x".toList), .ok ("Sum.".toList), .ok ("Yes.".toList)⟩

/-- Two inbound follow-up messages. -/
def c3msgs : List (Str × Oracles) :=
  [("Hi?".toList, c3oracles), ("Ok?".toList, c3oracles)]

/-- Fresh session store. -/
def c3init : StoredState := ⟨[], 0, 0⟩

/-- The store after processing the two messages. -/
def c3final : StoredState := (runMessages c3msgs c3init 0).getD c3init

/-- A committed entry for the recent-window scenarios. -/
def c6entryA : ConversationEntry := ⟨some .user, "A.".toList, none, none, some 1⟩

/-- A second committed entry. -/
def c6entryB : ConversationEntry := ⟨some .assistant, "B.".toList, none, none, some 2⟩

/-- A third committed entry. -/
def c6entryC : ConversationEntry := ⟨some .user, "C.".toList, none, none, some 3⟩

/-- A session log with a single entry. -/
def c6cexState : StoredState := ⟨[c6entryA], 0, 0⟩

/-- A session log with three entries. -/
def c6log3 : StoredState := ⟨[c6entryA, c6entryB, c6entryC], 0, 0⟩

/-- A URL message. -/
def c7msg : Str := "https://x.com".toList

/-- Oracles whose extraction fails with a fetch error. -/
def c7oracles : Oracles :=
  ⟨.err ("boom".toList), .ok ("S.".toList), .ok ("F.".toList)⟩

/-- Fresh session store for the URL-branch witness. -/
def c7state : StoredState := ⟨[], 0, 0⟩

/-- An append request carrying a client-supplied `createdAt` of 9. -/
def c8e1 : ConversationEntry := ⟨some .user, "A.".toList, none, none, some 9⟩

/-- A later append request carrying the smaller client-supplied
`createdAt` of 3. -/
def c8e2 : ConversationEntry := ⟨some .assistant, "B.".toList, none, none, some 3⟩

/-- Fresh session store. -/
def c8s0 : StoredState := ⟨[], 0, 0⟩

/-- Store after committing `c8e1` at server time 1. -/
def c8s1 : StoredState := (handleAppend c8s0 c8e1 1).2

/-- Store after additionally committing `c8e2` at server time 2. -/
def c8s2 : StoredState := (handleAppend c8s1 c8e2 2).2

/-- A committed entry for the stats scenario. -/
def c9entry : ConversationEntry := ⟨some .user, "A.".toList, none, none, some 1⟩

/-- A session store whose `lastAccessedAt` is 5. -/
def c9state : StoredState := ⟨[c9entry], 3, 5⟩

/-- Store after an append served at time 7. -/
def c9s2 : StoredState := (handleAppend c9state c9entry 7).2

/-- An append request with an empty content string. -/
def c10empty : ConversationEntry := ⟨some .assistant, [], none, none, none⟩

/-- Fresh session store for the validation witness. -/
def c10state : StoredState := ⟨[], 0, 0⟩

/-! ## Helper lemmas about the store -/

/-- A valid append commits the entry (with `createdAt` filled in when absent)
and stamps `lastAccessedAt`. -/
theorem handleAppend_valid (s : StoredState) (e : ConversationEntry) (now : Nat)
    (hr : e.role ≠ none) (hc : e.content ≠ []) :
    handleAppend s e now =
      (.ok (s.entries.length + 1),
       {s with entries := s.entries ++ [{e with createdAt := some (e.createdAt.getD now)}],
               lastAccessedAt := now}) := by
  unfold handleAppend
  rw [if_neg]
  · simp
  · rintro (h | h)
    · exact hr h
    · exact hc h

/-- An invalid append leaves the state untouched. -/
theorem handleAppend_invalid (s : StoredState) (e : ConversationEntry) (now : Nat)
    (hv : e.role = none ∨ e.content = []) :
    handleAppend s e now = (.invalid, s) := by
  unfold handleAppend
  rw [if_pos hv]

/-- A successful append grows the log by exactly one entry. -/
theorem handleAppend_ok_length (s : StoredState) (e : ConversationEntry) (now : Nat)
    (n : Nat) (s1 : StoredState) (h : handleAppend s e now = (.ok n, s1)) :
    s1.entries.length = s.entries.length + 1 := by
  unfold handleAppend at h
  split at h
  · injection h with h1 h2
    exact absurd h1 (by simp)
  · injection h with h1 h2
    subst h2
    simp

/-- A successful append stamps `lastAccessedAt` with the server time. -/
theorem handleAppend_ok_lastAccessed (s : StoredState) (e : ConversationEntry)
    (now : Nat) (n : Nat) (s1 : StoredState) (h : handleAppend s e now = (.ok n, s1)) :
    s1.lastAccessedAt = now := by
  unfold handleAppend at h
  split at h
  · injection h with h1 h2
    exact absurd h1 (by simp)
  · injection h with h1 h2
    subst h2
    rfl

/-- A successful append commits exactly the client entry, with `createdAt`
replaced by the client value when present and the server time otherwise. -/
theorem handleAppend_ok_committed (s : StoredState) (e : ConversationEntry)
    (now : Nat) (n : Nat) (s1 : StoredState) (h : handleAppend s e now = (.ok n, s1)) :
    s1.entries = s.entries ++ [{e with createdAt := some (e.createdAt.getD now)}] := by
  unfold handleAppend at h
  split at h
  · injection h with h1 h2
    exact absurd h1 (by simp)
  · injection h with h1 h2
    subst h2
    rfl

/-- Shape of a completed `finishTurn`. -/
theorem finishTurn_ok_shape (s1 : StoredState) (r : Str) (a : ConversationEntry)
    (c : List GenCall) (t : Nat) (res : TurnResult)
    (h : finishTurn s1 r a c t = .ok res) :
    res.reply = r ∧ res.genCalls = c ∧
      res.state.entries.length = s1.entries.length + 1 := by
  unfold finishTurn at h
  split at h
  · exact absurd h (by simp)
  · rename_i heq
    injection h with h1
    subst h1
    refine ⟨rfl, rfl, ?_⟩
    exact handleAppend_ok_length _ _ _ _ _ heq

/-- A `finishTurn` with a valid assistant entry completes and appends exactly
that entry. -/
theorem finishTurn_valid (s1 : StoredState) (r : Str) (a : ConversationEntry)
    (c : List GenCall) (t : Nat) (hr : a.role ≠ none) (hc : a.content ≠ []) :
    finishTurn s1 r a c t =
      .ok ⟨r, {s1 with
                entries := s1.entries ++ [{a with createdAt := some (a.createdAt.getD t)}],
                lastAccessedAt := t}, c⟩ := by
  unfold finishTurn
  rw [handleAppend_valid s1 a t hr hc]

/-- Non-emptiness of a string with a non-empty left part. -/
theorem append_ne_nil_left {l r : Str} (h : l ≠ []) : l ++ r ≠ [] :=
  fun hc => h (List.append_eq_nil.mp hc).1

/-- The URL-branch apology strings are never empty. -/
theorem strSorryUrl_ne_nil : strSorryUrl ≠ [] := by decide

/-- The content-branch apology strings are never empty. -/
theorem strSorryGen_ne_nil : strSorryGen ≠ [] := by decide

/-- The follow-up-branch apology strings are never empty. -/
theorem strSorryFollowup_ne_nil : strSorryFollowup ≠ [] := by decide

/-- The fixed no-context reply is not empty. -/
theorem strNoContext_ne_nil : strNoContext ≠ [] := by decide

/-- The submitted-URL user content is never empty. -/
theorem strSubmittedURL_ne_nil : strSubmittedURL ≠ [] := by decide

/-! ## Helper lemmas about trimming and counting -/

/-- Dropping a prefix of characters that cannot satisfy `q` preserves the
`q`-count. -/
theorem countP_dropWhile_eq (p q : Char → Bool)
    (hpq : ∀ c, p c = true → q c = false) :
    ∀ l : Str, (l.dropWhile p).countP q = l.countP q := by
  intro l
  induction l with
  | nil => rfl
  | cons a xs ih =>
    rw [List.dropWhile_cons]
    by_cases hpa : p a = true
    · rw [if_pos hpa, ih, List.countP_cons, hpq a hpa]
      simp
    · rw [if_neg hpa]

/-- Reversal preserves the count. -/
theorem countP_reverse_eq (q : Char → Bool) :
    ∀ l : Str, l.reverse.countP q = l.countP q := by
  intro l
  induction l with
  | nil => rfl
  | cons a xs ih =>
    rw [List.reverse_cons, List.countP_append, ih, List.countP_cons]
    simp [List.countP_cons]

/-- Whitespace characters are not sentence-ending punctuation. -/
theorem jsWhitespace_not_punct :
    ∀ c, jsWhitespace c = true → sentencePunct c = false := by
  intro c h
  simp only [jsWhitespace, Bool.or_eq_true, beq_iff_eq] at h
  rcases h with (((((((((h | h) | h) | h) | h) | h) | h) | h) | h) | h) <;>
    subst h <;> decide

/-- Trimming does not change the sentence-ending punctuation count. -/
theorem countSentenceEndings_jsTrim (l : Str) :
    countSentenceEndings (jsTrim l) = countSentenceEndings l := by
  unfold jsTrim countSentenceEndings
  rw [countP_reverse_eq, countP_dropWhile_eq _ _ jsWhitespace_not_punct,
      countP_reverse_eq, countP_dropWhile_eq _ _ jsWhitespace_not_punct]

/-! ## Claim C4 -/

/-- C4: the message classifier is a pure total function equal to the five-rule
cascade of the spec: URL on a leading case-insensitive `http://` or `https://`
scheme in the trimmed text; else FOLLOWUP on a trailing question mark; else
CONTENT above 200 trimmed characters; else CONTENT at three or more
sentence-ending punctuation marks; else FOLLOWUP — with exact boundary
behaviour at length 200 and at three marks, since the equality holds for
every input string. -/
theorem determineMessageType_matchesSpecRules :
    ∀ text : Str, determineMessageType text = specClassify text := by
  intro text
  unfold determineMessageType specClassify isURL isLikelyContentToSummarize
  dsimp only
  rw [countSentenceEndings_jsTrim]
  split_ifs <;> simp_all

/-! ## Claim C5 -/

/-- `slice(-n)` with a positive count is exactly the last `n` elements. -/
theorem jsSliceFrom_neg {α : Type} (l : List α) (n : Nat) (hn : 1 ≤ n) :
    jsSliceFrom l (-(n : Int)) = lastN n l := by
  unfold jsSliceFrom lastN
  rw [if_pos (by omega)]
  congr 1
  simp only [Int.neg_neg, Int.toNat_natCast]
  omega

/-- When the window is at least the whole list, the last-`n` window is the
list itself. -/
theorem lastN_of_length_le {α : Type} (l : List α) (n : Nat)
    (h : l.length ≤ n) : lastN n l = l := by
  unfold lastN
  rw [Nat.sub_eq_zero_of_le h, List.drop_zero]

/-- Accumulating fold of rendered lines equals the concatenation of the
rendered lines. -/
theorem foldl_render_eq_flatten (f : ConversationEntry → Str) :
    ∀ (l : List ConversationEntry) (acc : Str),
      l.foldl (fun a e => a ++ f e) acc = acc ++ (l.map f).flatten := by
  intro l
  induction l with
  | nil => intro acc; simp
  | cons x xs ih => intro acc; simp [ih, List.append_assoc]

/-- The inline take-plus-marker of the source equals the spec-side truncation. -/
theorem take_ellipsis_eq (s : Str) (n : Nat) :
    s.take n ++ (if n < s.length then strEllipsis else []) =
      truncateEllipsis s n := by
  by_cases hl : n < s.length
  · rw [truncateEllipsis, if_pos hl, if_pos hl]
  · rw [truncateEllipsis, if_neg hl, if_neg hl,
        List.take_of_length_le (Nat.le_of_not_lt hl), List.append_nil]

/-- The source context-line renderer agrees with the spec-side renderer on
every entry. -/
theorem renderEntrySrc_eq_spec (e : ConversationEntry) :
    renderEntrySrc e = specRenderEntry e := by
  obtain ⟨r, content, ty, u, ca⟩ := e
  unfold renderEntrySrc specRenderEntry
  rcases r with _ | r
  · rfl
  rcases r
  case user =>
    rcases ty with _ | ty
    · simp [take_ellipsis_eq]
    rcases ty <;> rcases u with _ | u <;> simp [take_ellipsis_eq]
  case assistant =>
    rcases ty with _ | ty
    · simp [take_ellipsis_eq]
    rcases ty <;> rcases u with _ | u <;> simp [take_ellipsis_eq]
  case system =>
    rcases ty with _ | ty
    · rfl
    rcases ty <;> rcases u with _ | u <;> rfl

/-- C5: the context-window builder uses exactly the last five supplied
entries (five in total, not per role) in original chronological order;
URL-summary user entries with a URL render as the submitted-URL line, other
user entries render their content truncated at 200 characters with an
ellipsis marker exactly when truncated, and assistant entries render their
content truncated at 300 characters with an ellipsis marker exactly when
truncated. -/
theorem buildContextText_matchesSpecWindow :
    ∀ entries : List ConversationEntry,
      buildContextText entries = specContextBlock entries := by
  intro entries
  unfold buildContextText specContextBlock
  rw [(by norm_num : (-5 : Int) = -((5 : Nat) : Int)),
      jsSliceFrom_neg entries 5 (by omega),
      foldl_render_eq_flatten, List.nil_append]
  congr 1
  exact List.map_congr_left fun e _ => renderEntrySrc_eq_spec e

/-! ## Claim C6 -/

/-- C6 counterexample: at `limit = 0` the recent operation returns the whole
log (JavaScript `slice(-0)` is `slice(0)`), not the last zero entries, so the
claim fails for that limit. -/
theorem handleGetRecent_limitZero_returnsWholeLog :
    (handleGetRecent c6cexState 0 5).1 = c6cexState.entries ∧
    (handleGetRecent c6cexState 0 5).1 ≠ lastN 0 c6cexState.entries := by
  decide

/-- C6 amended: for every session log and every limit of at least one, the
recent operation returns the last `limit` entries of the log in original
order, and the whole log when the limit is at least the log length. -/
theorem handleGetRecent_lastLimitEntries (s : StoredState) (limit : Int)
    (now : Nat) (h : 1 ≤ limit) :
    (handleGetRecent s limit now).1 = lastN limit.toNat s.entries ∧
    (s.entries.length ≤ limit.toNat →
      (handleGetRecent s limit now).1 = s.entries) := by
  have hl : limit = ((limit.toNat : Nat) : Int) :=
    (Int.toNat_of_nonneg (by omega)).symm
  constructor
  · unfold handleGetRecent
    dsimp only
    rw [hl, jsSliceFrom_neg s.entries limit.toNat (by omega), Int.toNat_natCast]
  · intro hle
    unfold handleGetRecent
    dsimp only
    rw [hl, jsSliceFrom_neg s.entries limit.toNat (by omega),
        lastN_of_length_le _ _ hle]

/-- C6 witness: a log of three entries queried with limit 10 yields all
three entries, in original order. -/
theorem handleGetRecent_lastLimitEntries_witness :
    (1 : Int) ≤ 10 ∧
    ((handleGetRecent c6log3 10 99).1 = lastN (10 : Int).toNat c6log3.entries ∧
     (c6log3.entries.length ≤ (10 : Int).toNat →
       (handleGetRecent c6log3 10 99).1 = c6log3.entries)) ∧
    (handleGetRecent c6log3 10 99).1 = [c6entryA, c6entryB, c6entryC] :=
  ⟨by decide, handleGetRecent_lastLimitEntries c6log3 10 99 (by decide), by decide⟩

/-! ## Claim C8 -/

/-- C8 counterexample: the store keeps client-supplied `createdAt` values
verbatim.  Appending an entry stamped 9 at server time 1 and then an entry
stamped 3 at server time 2 commits the timestamps 9 and 3 — not the server
times — and the resulting log is not non-decreasing. -/
theorem handleAppend_keepsClientCreatedAt_cex :
    c8s2.entries.map (fun e => e.createdAt) = [some 9, some 3] ∧
    (3 : Nat) < 9 ∧ (9 : Nat) ≠ 1 ∧ (3 : Nat) ≠ 2 := by
  decide

/-- C8 amended: the store assigns `createdAt` at append time only when the
client entry lacks one; a client-supplied `createdAt` is committed verbatim,
so the store by itself does not enforce monotonicity. -/
theorem handleAppend_createdAt_assignedOnlyIfAbsent (s : StoredState)
    (e : ConversationEntry) (now : Nat) (n : Nat) (s1 : StoredState)
    (h : handleAppend s e now = (.ok n, s1)) :
    (e.createdAt = none →
      s1.entries.getLast? = some {e with createdAt := some now}) ∧
    (∀ t0, e.createdAt = some t0 →
      s1.entries.getLast? = some {e with createdAt := some t0}) := by
  have hc := handleAppend_ok_committed s e now n s1 h
  constructor
  · intro hnone
    rw [hc, List.getLast?_concat, hnone]
    rfl
  · intro t0 hsome
    rw [hc, List.getLast?_concat, hsome]
    rfl

/-- C8 witness: the first append of the counterexample scenario, whose
client-supplied timestamp 9 is committed verbatim at server time 1. -/
theorem handleAppend_createdAt_witness :
    handleAppend c8s0 c8e1 1 = (.ok 1, c8s1) ∧
    c8s1.entries.getLast? = some {c8e1 with createdAt := some 9} :=
  ⟨by decide,
   (handleAppend_createdAt_assignedOnlyIfAbsent c8s0 c8e1 1 1 c8s1
     (by decide)).2 9 (by decide)⟩

/-! ## Claim C9 -/

/-- C9 counterexample: the stats read leaves the session state — in
particular `lastAccessedAt` — unchanged, so a stats request served at time 7
against a state last accessed at time 5 does not update the timestamp. -/
theorem handleGetStats_doesNotUpdateLastAccessed :
    (handleGetStats c9state 7).2 = c9state ∧
    c9state.lastAccessedAt = 5 ∧ (5 : Nat) ≠ 7 := by
  decide

/-- C9 amended: append, recent and clear update `lastAccessedAt` to the
request time, while the stats read leaves the state unchanged. -/
theorem storeOps_lastAccessed_behavior (s : StoredState)
    (e : ConversationEntry) (limit : Int) (now : Nat) :
    (∀ n s1, handleAppend s e now = (.ok n, s1) → s1.lastAccessedAt = now) ∧
    (handleGetRecent s limit now).2.lastAccessedAt = now ∧
    (handleClear s now).lastAccessedAt = now ∧
    (handleGetStats s now).2 = s := by
  refine ⟨?_, rfl, rfl, rfl⟩
  intro n s1 h
  exact handleAppend_ok_lastAccessed s e now n s1 h

/-- C9 witness: the amended behaviour at a concrete state and time. -/
theorem storeOps_lastAccessed_witness :
    handleAppend c9state c9entry 7 = (.ok 2, c9s2) ∧
    c9s2.lastAccessedAt = 7 ∧
    (handleGetRecent c9state 3 7).2.lastAccessedAt = 7 ∧
    (handleClear c9state 7).lastAccessedAt = 7 ∧
    (handleGetStats c9state 7).2 = c9state :=
  ⟨by decide,
   (storeOps_lastAccessed_behavior c9state c9entry 3 7).1 2 c9s2 (by decide),
   (storeOps_lastAccessed_behavior c9state c9entry 3 7).2.1,
   (storeOps_lastAccessed_behavior c9state c9entry 3 7).2.2.1,
   (storeOps_lastAccessed_behavior c9state c9entry 3 7).2.2.2⟩

/-! ## Claim C10 -/

/-- C10: an append request with a missing role or an empty content string is
rejected with the validation error and leaves the session log unchanged;
consequently every entry present after any append is either an old entry or
has non-empty content, so an empty assistant reply can never be committed. -/
theorem handleAppend_rejectsInvalidEntry (s : StoredState)
    (e : ConversationEntry) (now : Nat) :
    ((e.role = none ∨ e.content = []) → handleAppend s e now = (.invalid, s)) ∧
    (∀ x ∈ (handleAppend s e now).2.entries, x ∈ s.entries ∨ x.content ≠ []) := by
  constructor
  · exact handleAppend_invalid s e now
  · intro x hx
    by_cases hv : e.role = none ∨ e.content = []
    · rw [handleAppend_invalid s e now hv] at hx
      exact Or.inl hx
    · push_neg at hv
      rw [handleAppend_valid s e now hv.1 hv.2] at hx
      simp only [List.mem_append, List.mem_singleton] at hx
      rcases hx with hx | hx
      · exact Or.inl hx
      · subst hx
        exact Or.inr hv.2

/-- C10 witness: the empty-content assistant entry is rejected and the log
stays empty. -/
theorem handleAppend_rejectsInvalidEntry_witness :
    (c10empty.role = none ∨ c10empty.content = []) ∧
    handleAppend c10state c10empty 0 = (.invalid, c10state) ∧
    (∀ x ∈ (handleAppend c10state c10empty 0).2.entries,
      x ∈ c10state.entries ∨ x.content ≠ []) :=
  ⟨Or.inr rfl,
   (handleAppend_rejectsInvalidEntry c10state c10empty 0).1 (Or.inr rfl),
   (handleAppend_rejectsInvalidEntry c10state c10empty 0).2⟩

/-! ## Claim C3 -/

/-- The recent read never changes the entry list. -/
theorem handleGetRecent_snd_entries (s : StoredState) (limit : Int) (now : Nat) :
    (handleGetRecent s limit now).2.entries = s.entries := rfl

/-- Every URL-branch try block produces an assistant entry. -/
theorem urlTryBlock_role (url : Str) (o : Oracles) (t : Nat) :
    (urlTryBlock url o t).2.1.role = some Role.assistant := by
  obtain ⟨ext, summ, fol⟩ := o
  rcases ext with v | e <;> rcases summ with v2 | e2 <;>
    unfold urlTryBlock <;> dsimp only <;> first | rfl | (split <;> rfl)

/-- Every content-branch try block produces an assistant entry. -/
theorem contentTryBlock_role (message : Str) (o : Oracles) (t : Nat) :
    (contentTryBlock message o t).2.1.role = some Role.assistant := by
  obtain ⟨ext, summ, fol⟩ := o
  rcases summ with v | e <;> rfl

/-- Every follow-up-branch try block produces an assistant entry. -/
theorem followupTryBlock_role (message : Str) (context : List ConversationEntry)
    (o : Oracles) (t : Nat) :
    (followupTryBlock message context o t).2.1.role = some Role.assistant := by
  obtain ⟨ext, summ, fol⟩ := o
  rcases fol with v | e <;> unfold followupTryBlock <;> dsimp only <;>
    first | rfl | (split <;> rfl)

/-- Shape of a completed `finishTurn`, including the committed assistant
entry. -/
theorem finishTurn_ok_parts (s1 : StoredState) (r : Str) (a : ConversationEntry)
    (c : List GenCall) (t : Nat) (res : TurnResult)
    (h : finishTurn s1 r a c t = .ok res) :
    res.reply = r ∧ res.genCalls = c ∧
      ∃ a2, res.state.entries = s1.entries ++ [a2] ∧
        a2.role = a.role ∧ a2.content = a.content := by
  unfold finishTurn at h
  split at h
  · exact absurd h (by simp)
  · rename_i n s2 heq
    injection h with h1
    subst h1
    refine ⟨rfl, rfl, {a with createdAt := some (a.createdAt.getD t)}, ?_, rfl, rfl⟩
    exact handleAppend_ok_committed _ _ _ _ _ heq

/-- A completed turn appends exactly a user entry followed by an assistant
entry. -/
theorem processMessage_appends_pair (msg : Str) (s : StoredState) (o : Oracles)
    (t : Nat) (res : TurnResult) (h : processMessage msg s o t = .ok res) :
    ∃ u a, res.state.entries = s.entries ++ [u, a] ∧
      u.role = some Role.user ∧ a.role = some Role.assistant := by
  unfold processMessage at h
  split at h
  case _ =>
    split at h
    · exact absurd h (by simp)
    · rename_i n s1 heq
      dsimp only at h
      obtain ⟨-, -, a2, hent, hrole, -⟩ := finishTurn_ok_parts _ _ _ _ _ _ h
      refine ⟨urlUserEntry (jsTrim msg) t, a2, ?_, rfl, ?_⟩
      · rw [hent, handleAppend_ok_committed _ _ _ _ _ heq, List.append_assoc]
        rfl
      · rw [hrole, urlTryBlock_role]
  case _ =>
    split at h
    · exact absurd h (by simp)
    · rename_i n s1 heq
      dsimp only at h
      obtain ⟨-, -, a2, hent, hrole, -⟩ := finishTurn_ok_parts _ _ _ _ _ _ h
      refine ⟨contentUserEntry msg t, a2, ?_, rfl, ?_⟩
      · rw [hent, handleAppend_ok_committed _ _ _ _ _ heq, List.append_assoc]
        rfl
      · rw [hrole, contentTryBlock_role]
  case _ =>
    split at h
    · exact absurd h (by simp)
    · rename_i n s1 heq
      dsimp only at h
      obtain ⟨-, -, a2, hent, hrole, -⟩ := finishTurn_ok_parts _ _ _ _ _ _ h
      rw [handleGetRecent_snd_entries] at hent
      refine ⟨followupUserEntry msg t, a2, ?_, rfl, ?_⟩
      · rw [hent, handleAppend_ok_committed _ _ _ _ _ heq, List.append_assoc]
        rfl
      · rw [hrole, followupTryBlock_role]

/-- C3: every inbound message whose turn completes (no append rejection,
hence no storage failure) appends exactly one user entry followed by one
assistant entry — including when extraction or generation failed — and a
batch of N completed messages grows the log by exactly 2N entries, so a
fresh session holds 2N entries after N messages. -/
theorem processedMessages_appendExactlyTwoEntries :
    (∀ msg s o t res, processMessage msg s o t = .ok res →
       ∃ u a, res.state.entries = s.entries ++ [u, a] ∧
         u.role = some Role.user ∧ a.role = some Role.assistant) ∧
    (∀ msgs s0 t sN, runMessages msgs s0 t = some sN →
       sN.entries.length = s0.entries.length + 2 * msgs.length) := by
  constructor
  · exact processMessage_appends_pair
  · intro msgs
    induction msgs with
    | nil =>
      intro s0 t sN h
      injection h with h1
      subst h1
      simp
    | cons p rest ih =>
      intro s0 t sN h
      obtain ⟨m, o⟩ := p
      unfold runMessages at h
      split at h
      · rename_i res heq
        obtain ⟨u, a, hent, -, -⟩ := processMessage_appends_pair _ _ _ _ _ heq
        have h2 := ih res.state (t + 5) sN h
        rw [hent] at h2
        simp only [List.length_append, List.length_cons, List.length_nil] at h2 ⊢
        omega
      · exact absurd h (by simp)

/-- C3 witness: two follow-up messages against a fresh session leave a log
of exactly four entries. -/
theorem processedMessages_appendExactlyTwoEntries_witness :
    runMessages c3msgs c3init 0 = some c3final ∧
    c3final.entries.length = c3init.entries.length + 2 * c3msgs.length :=
  ⟨by decide,
   processedMessages_appendExactlyTwoEntries.2 c3msgs c3init 0 c3final (by decide)⟩

/-! ## Claim C7 -/

/-- In the URL branch the reply always equals the assistant entry content. -/
theorem urlTryBlock_reply_content (url : Str) (o : Oracles) (t : Nat) :
    (urlTryBlock url o t).1 = (urlTryBlock url o t).2.1.content := by
  obtain ⟨ext, summ, fol⟩ := o
  rcases ext with v | e
  · unfold urlTryBlock
    dsimp only
    split
    · rfl
    · rcases summ with v2 | e2 <;> rfl
  · rfl

/-- C7: in the URL branch, an extraction result that is empty or shorter
than 50 characters after trimming is treated as a failure; on any failure
(fetch error, too-short extraction, generation error) the appended assistant
entry has the apology content embedding the failure message and carries no
URL; and every completed turn returns a reply equal to that assistant
content of that assistant entry; extraction and generation errors are absorbed — each
failure case below completes with an `ok` outcome rather than an error. -/
theorem urlBranch_absorbsFailures (msg : Str) (s : StoredState) (o : Oracles)
    (t : Nat) (h : determineMessageType msg = .url) :
    (∀ res, processMessage msg s o t = .ok res →
       ∃ a, res.state.entries = s.entries ++ [urlUserEntry (jsTrim msg) t, a] ∧
         res.reply = a.content) ∧
    (∀ e, o.extractResult = .err e →
       ∃ res a, processMessage msg s o t = .ok res ∧
         res.state.entries = s.entries ++ [urlUserEntry (jsTrim msg) t, a] ∧
         res.reply = a.content ∧ a.url = none ∧ a.content = strSorryUrl ++ e) ∧
    (∀ txt, o.extractResult = .ok txt → (txt = [] ∨ (jsTrim txt).length < 50) →
       ∃ res a, processMessage msg s o t = .ok res ∧
         res.state.entries = s.entries ++ [urlUserEntry (jsTrim msg) t, a] ∧
         res.reply = a.content ∧ a.url = none ∧
         a.content = strSorryUrl ++ strNoMeaningful) ∧
    (∀ txt e, o.extractResult = .ok txt →
       ¬(txt = [] ∨ (jsTrim txt).length < 50) → o.summaryResult = .err e →
       ∃ res a, processMessage msg s o t = .ok res ∧
         res.state.entries = s.entries ++ [urlUserEntry (jsTrim msg) t, a] ∧
         res.reply = a.content ∧ a.url = none ∧ a.content = strSorryUrl ++ e) := by
  obtain ⟨ext, summ, fol⟩ := o
  refine ⟨?_, ?_, ?_, ?_⟩
  · intro res hres
    unfold processMessage at hres
    rw [h] at hres
    dsimp only at hres
    split at hres
    · exact absurd hres (by simp)
    · rename_i n s1 heq
      obtain ⟨hr, -, a2, hent, -, hcont⟩ := finishTurn_ok_parts _ _ _ _ _ _ hres
      refine ⟨a2, ?_, ?_⟩
      · rw [hent, handleAppend_ok_committed _ _ _ _ _ heq, List.append_assoc]
        rfl
      · rw [hr, hcont, urlTryBlock_reply_content]
  · intro e he
    dsimp only at he
    subst he
    have hpm : processMessage msg s ⟨.err e, summ, fol⟩ t =
        finishTurn {s with entries := s.entries ++ [urlUserEntry (jsTrim msg) t],
                           lastAccessedAt := t + 1}
          (strSorryUrl ++ e) (urlFailEntry e (t + 2)) [] (t + 3) := by
      unfold processMessage
      rw [h]
      dsimp only
      rw [handleAppend_valid s (urlUserEntry (jsTrim msg) t) (t + 1)
        (by simp [urlUserEntry]) (append_ne_nil_left strSubmittedURL_ne_nil)]
      dsimp only
      rfl
    refine ⟨_, urlFailEntry e (t + 2),
      hpm.trans (finishTurn_valid _ _ _ _ _ (by simp [urlFailEntry])
        (append_ne_nil_left strSorryUrl_ne_nil)), ?_, rfl, rfl, rfl⟩
    rw [List.append_assoc]
    rfl
  · intro txt he hshort
    dsimp only at he
    subst he
    have htb : urlTryBlock (jsTrim msg) ⟨.ok txt, summ, fol⟩ (t + 2) =
        (strSorryUrl ++ strNoMeaningful, urlFailEntry strNoMeaningful (t + 2), []) := by
      unfold urlTryBlock
      dsimp only
      rw [if_pos hshort]
    have hpm : processMessage msg s ⟨.ok txt, summ, fol⟩ t =
        finishTurn {s with entries := s.entries ++ [urlUserEntry (jsTrim msg) t],
                           lastAccessedAt := t + 1}
          (strSorryUrl ++ strNoMeaningful) (urlFailEntry strNoMeaningful (t + 2))
          [] (t + 3) := by
      unfold processMessage
      rw [h]
      dsimp only
      rw [htb, handleAppend_valid s (urlUserEntry (jsTrim msg) t) (t + 1)
        (by simp [urlUserEntry]) (append_ne_nil_left strSubmittedURL_ne_nil)]
      dsimp only
      rfl
    refine ⟨_, urlFailEntry strNoMeaningful (t + 2),
      hpm.trans (finishTurn_valid _ _ _ _ _ (by simp [urlFailEntry])
        (append_ne_nil_left strSorryUrl_ne_nil)), ?_, rfl, rfl, rfl⟩
    rw [List.append_assoc]
    rfl
  · intro txt e he hlong hsum
    dsimp only at he hsum
    subst he
    subst hsum
    have htb : urlTryBlock (jsTrim msg) ⟨.ok txt, .err e, fol⟩ (t + 2) =
        (strSorryUrl ++ e, urlFailEntry e (t + 2),
         [GenCall.summary txt (some (jsTrim msg))]) := by
      unfold urlTryBlock
      dsimp only
      rw [if_neg hlong]
    have hpm : processMessage msg s ⟨.ok txt, .err e, fol⟩ t =
        finishTurn {s with entries := s.entries ++ [urlUserEntry (jsTrim msg) t],
                           lastAccessedAt := t + 1}
          (strSorryUrl ++ e) (urlFailEntry e (t + 2))
          [GenCall.summary txt (some (jsTrim msg))] (t + 3) := by
      unfold processMessage
      rw [h]
      dsimp only
      rw [htb, handleAppend_valid s (urlUserEntry (jsTrim msg) t) (t + 1)
        (by simp [urlUserEntry]) (append_ne_nil_left strSubmittedURL_ne_nil)]
      dsimp only
      rfl
    refine ⟨_, urlFailEntry e (t + 2),
      hpm.trans (finishTurn_valid _ _ _ _ _ (by simp [urlFailEntry])
        (append_ne_nil_left strSorryUrl_ne_nil)), ?_, rfl, rfl, rfl⟩
    rw [List.append_assoc]
    rfl

/-- C7 witness: a URL message whose extraction fails with message `boom`
completes with the apology reply, and the assistant entry has no URL. -/
theorem urlBranch_absorbsFailures_witness :
    determineMessageType c7msg = .url ∧
    (∃ res a, processMessage c7msg c7state c7oracles 0 = .ok res ∧
       res.state.entries = c7state.entries ++ [urlUserEntry (jsTrim c7msg) 0, a] ∧
       res.reply = a.content ∧ a.url = none ∧
       a.content = strSorryUrl ++ ("boom".toList)) :=
  ⟨by decide,
   (urlBranch_absorbsFailures c7msg c7state c7oracles 0 (by decide)).2.1
     ("boom".toList) rfl⟩

/-! ## Claim C1 -/

/-- C1 (code bug): in the follow-up branch the user entry is appended before
the context is fetched, so at a concrete one-entry log the generation call
receives a context that contains the just-appended current question as its
most recent element — the context does not exclude it. -/
theorem followupContextIncludesCurrentQuestion :
    processMessage c1msg c1state c1oracles 10 = .ok c1res ∧
    c1res.genCalls =
      [GenCall.followup c1msg [c1prior, followupUserEntry c1msg 10]] ∧
    followupUserEntry c1msg 10 ∈ [c1prior, followupUserEntry c1msg 10] ∧
    (followupUserEntry c1msg 10).content = c1msg := by
  decide

/-! ## Claim C2 -/

/-- C2 (code bug): a follow-up turn on an empty session log still invokes
generation — the context fetched after the append holds the just-appended
question, so the fixed no-context reply is not produced; the turn does
append exactly two entries. -/
theorem emptyLogFollowupStillInvokesGeneration :
    processMessage c2msg c2state c2oracles 0 = .ok c2res ∧
    c2res.genCalls = [GenCall.followup c2msg [followupUserEntry c2msg 0]] ∧
    c2res.genCalls ≠ [] ∧
    c2res.reply ≠ strNoContext ∧
    c2res.state.entries.length = 2 := by
  decide

end EdgeSummon
